import Mathlib

/-!
Verification of the `prost` WASI bridge (`prost.go`).

The Go code wraps a WASM module (via wazero), driving a call protocol:
allocate input in module memory, invoke `prost_execute`, fetch the output
pointer, copy the output out, clear the module's output buffer, and free
the input buffer.  The module itself is an opaque collaborator, so it is
modelled as an oracle: a record of export functions over an abstract
instance state `σ`.  Each export call may fail (wazero `Call` returning an
error is modelled by `Option`).  The host code of `Execute`,
`allocBytes`, `freePtr` and `NewProtocGenProstWithModule` is translated
statement by statement, and instrumented with an event trace recording
every export invocation and memory access the host performs, so that
claims about which exports are invoked (and how often, with which
arguments) become statements about the trace.
-/

namespace Prost

/-- Byte sequences crossing the boundary (`[]byte` in Go). -/
abbrev Bytes := List Nat

/-- Modulus for Go `uint32` conversions. -/
def U32MOD : Nat := 2 ^ 32

/-- Go `uint32(x)` truncation of a wider value. -/
def u32 (n : Nat) : Nat := n % U32MOD

/-- The resolved export set of a live instance, as the host sees it after
`NewProtocGenProstWithModule` succeeds.  State-passing oracle over an
abstract instance state `σ`; `none` models a wazero `Call` (or memory
access) failure.  `memRead` mirrors `api.Memory.Read`, which does not call
into the module and does not mutate state. -/
structure WasmModule (σ : Type) where
  malloc : Nat → σ → Option (Nat × σ)
  free : Nat → Nat → σ → Option σ
  prost_execute : Nat → Nat → σ → Option (Nat × σ)
  prost_get_output_ptr : σ → Option (Nat × σ)
  prost_get_output_len : σ → Option (Nat × σ)
  prost_clear_output : σ → Option σ
  memWrite : Nat → Bytes → σ → Option σ
  memRead : Nat → Nat → σ → Option Bytes

/-- One observable host-side action: an export invocation or a linear
memory access.  Numeric return values are recorded as the host observes
them after its `uint32` conversion. -/
inductive Event where
  | initCall (ok : Bool)
  | closeMod
  | mallocCall (size : Nat) (ret : Option Nat)
  | freeCall (ptr size : Nat) (ok : Bool)
  | executeCall (ptr len : Nat) (ret : Option Nat)
  | getOutputPtrCall (ret : Option Nat)
  | getOutputLenCall (ret : Option Nat)
  | clearOutputCall (ok : Bool)
  | memWriteOp (ptr : Nat) (data : Bytes) (ok : Bool)
  | memReadOp (ptr len : Nat) (ret : Option Bytes)
deriving DecidableEq

/-- Recognizer for deallocator invocations. -/
def Event.isFree : Event → Bool
  | .freeCall _ _ _ => true
  | _ => false

/-- Recognizer for allocator invocations. -/
def Event.isMalloc : Event → Bool
  | .mallocCall _ _ => true
  | _ => false

/-- Recognizer for `prost_execute` invocations. -/
def Event.isExecute : Event → Bool
  | .executeCall _ _ _ => true
  | _ => false

/-- Recognizer for `prost_get_output_len` invocations. -/
def Event.isGetOutputLen : Event → Bool
  | .getOutputLenCall _ => true
  | _ => false

/-- Recognizer for `prost_clear_output` invocations. -/
def Event.isClearOutput : Event → Bool
  | .clearOutputCall _ => true
  | _ => false

/-- Recognizer for the `_initialize` invocation. -/
def Event.isInit : Event → Bool
  | .initCall _ => true
  | _ => false

/-- Errors of `allocBytes` (Go returns them as wrapped `error` values). -/
inductive AllocErr where
  | callFailed
  | mallocNull
  | writeFailed
deriving DecidableEq

/-- Errors of `Execute`, one per distinct `return nil, ...` site. -/
inductive ProstError where
  | allocFailed (e : AllocErr)
  | executeFailed
  | getOutputPtrFailed
  | memReadFailed
  | clearOutputFailed
deriving DecidableEq

/-- Translation of `(p *ProtocGenProst) freePtr(ctx, ptr, size uint32)`:
calls the `prost_free` export unless the pointer is zero, discarding any
error from the call. -/
def freePtr (M : WasmModule σ) (s : σ) (ptr size : Nat) : σ × List Event :=
  if ptr ≠ 0 then
    match M.free ptr size s with
    | some s₁ => (s₁, [Event.freeCall ptr size true])
    | none => (s, [Event.freeCall ptr size false])
  else (s, [])

/-- Translation of `(p *ProtocGenProst) allocBytes(ctx, data)`: returns a
zero pointer without touching the allocator for empty `data`; otherwise
calls `prost_malloc`, rejects a null pointer, writes `data` into linear
memory at the returned pointer, and on a rejected write frees the region
(directly via `p.free.Call`, ignoring its error) before reporting the
write failure. -/
def allocBytes (M : WasmModule σ) (s : σ) (data : Bytes) :
    Except AllocErr Nat × σ × List Event :=
  if data.length = 0 then (.ok 0, s, [])
  else
    match M.malloc data.length s with
    | none => (.error .callFailed, s, [Event.mallocCall data.length none])
    | some (r, s₁) =>
      let ptr := u32 r
      if ptr = 0 then
        (.error .mallocNull, s₁, [Event.mallocCall data.length (some ptr)])
      else
        match M.memWrite ptr data s₁ with
        | some s₂ =>
          (.ok ptr, s₂,
            [Event.mallocCall data.length (some ptr),
             Event.memWriteOp ptr data true])
        | none =>
          match M.free ptr data.length s₁ with
          | some s₂ =>
            (.error .writeFailed, s₂,
              [Event.mallocCall data.length (some ptr),
               Event.memWriteOp ptr data false,
               Event.freeCall ptr data.length true])
          | none =>
            (.error .writeFailed, s₁,
              [Event.mallocCall data.length (some ptr),
               Event.memWriteOp ptr data false,
               Event.freeCall ptr data.length false])

/-- Translation of `(p *ProtocGenProst) Execute(ctx, input)`: allocate and
write the input, invoke `prost_execute`, take its return value (after
`uint32` conversion) as the output length, fetch the output pointer,
read that many bytes from linear memory, copy them (value semantics make
the copy an identity here), invoke `prost_clear_output`, and on every
path after a successful allocation run the deferred
`freePtr(inputPtr, uint32(len(input)))` last.  The mutex acquisition and
release surrounding the body is a concurrency construct outside this
sequential model. -/
def Execute (M : WasmModule σ) (s : σ) (input : Bytes) :
    Except ProstError Bytes × σ × List Event :=
  match allocBytes M s input with
  | (.error e, s₁, tr₁) => (.error (.allocFailed e), s₁, tr₁)
  | (.ok inputPtr, s₁, tr₁) =>
    match M.prost_execute inputPtr input.length s₁ with
    | none =>
      let fr := freePtr M s₁ inputPtr (u32 input.length)
      (.error .executeFailed, fr.1,
        tr₁ ++ [Event.executeCall inputPtr input.length none] ++ fr.2)
    | some (r₀, s₂) =>
      let outputLen := u32 r₀
      match M.prost_get_output_ptr s₂ with
      | none =>
        let fr := freePtr M s₂ inputPtr (u32 input.length)
        (.error .getOutputPtrFailed, fr.1,
          tr₁ ++ [Event.executeCall inputPtr input.length (some outputLen),
                  Event.getOutputPtrCall none] ++ fr.2)
      | some (r₁, s₃) =>
        let outputPtr := u32 r₁
        match M.memRead outputPtr outputLen s₃ with
        | none =>
          let fr := freePtr M s₃ inputPtr (u32 input.length)
          (.error .memReadFailed, fr.1,
            tr₁ ++ [Event.executeCall inputPtr input.length (some outputLen),
                    Event.getOutputPtrCall (some outputPtr),
                    Event.memReadOp outputPtr outputLen none] ++ fr.2)
        | some output =>
          let result := output
          match M.prost_clear_output s₃ with
          | none =>
            let fr := freePtr M s₃ inputPtr (u32 input.length)
            (.error .clearOutputFailed, fr.1,
              tr₁ ++ [Event.executeCall inputPtr input.length (some outputLen),
                      Event.getOutputPtrCall (some outputPtr),
                      Event.memReadOp outputPtr outputLen (some output),
                      Event.clearOutputCall false] ++ fr.2)
          | some s₄ =>
            let fr := freePtr M s₄ inputPtr (u32 input.length)
            (.ok result, fr.1,
              tr₁ ++ [Event.executeCall inputPtr input.length (some outputLen),
                      Event.getOutputPtrCall (some outputPtr),
                      Event.memReadOp outputPtr outputLen (some output),
                      Event.clearOutputCall true] ++ fr.2)

/-- Errors of `NewProtocGenProstWithModule` after the module has been
instantiated: a failing `_initialize` call, or a missing required export
(named by its Go export-name string). -/
inductive NewErr where
  | initFailed
  | missingExport (name : String)
deriving DecidableEq

/-- The raw instantiated module before export resolution: the optional
`_initialize` export and the six required exports, each possibly absent
(`mod.ExportedFunction` returning `nil`), plus the linear memory access
functions which wazero always provides. -/
structure RawModule (σ : Type) where
  initFn : Option (σ → Option σ)
  malloc? : Option (Nat → σ → Option (Nat × σ))
  free? : Option (Nat → Nat → σ → Option σ)
  prostExecute? : Option (Nat → Nat → σ → Option (Nat × σ))
  prostGetOutputPtr? : Option (σ → Option (Nat × σ))
  prostGetOutputLen? : Option (σ → Option (Nat × σ))
  prostClearOutput? : Option (σ → Option σ)
  memWriteFn : Nat → Bytes → σ → Option σ
  memReadFn : Nat → Nat → σ → Option Bytes

/-- The export-resolution and validation tail of
`NewProtocGenProstWithModule`: builds the instance record, then checks
the six required exports in source order; the first absent one yields a
named error after closing the module. -/
def resolveExports (raw : RawModule σ) (s : σ) (tr : List Event) :
    Except NewErr (WasmModule σ) × σ × List Event :=
  match raw.malloc? with
  | none => (.error (.missingExport "prost_malloc"), s, tr ++ [Event.closeMod])
  | some mal =>
    match raw.free? with
    | none => (.error (.missingExport "prost_free"), s, tr ++ [Event.closeMod])
    | some fr =>
      match raw.prostExecute? with
      | none => (.error (.missingExport "prost_execute"), s, tr ++ [Event.closeMod])
      | some ex =>
        match raw.prostGetOutputPtr? with
        | none => (.error (.missingExport "prost_get_output_ptr"), s, tr ++ [Event.closeMod])
        | some gp =>
          match raw.prostGetOutputLen? with
          | none => (.error (.missingExport "prost_get_output_len"), s, tr ++ [Event.closeMod])
          | some gl =>
            match raw.prostClearOutput? with
            | none => (.error (.missingExport "prost_clear_output"), s, tr ++ [Event.closeMod])
            | some co =>
              (.ok ⟨mal, fr, ex, gp, gl, co, raw.memWriteFn, raw.memReadFn⟩, s, tr)

/-- Translation of `NewProtocGenProstWithModule` from the point where the
module has been instantiated: call `_initialize` if that export is
present (closing the module and failing if the call errors), then resolve
and validate the six required exports.  WASI and module instantiation
themselves are external runtime steps represented by the given `raw`
module and initial state `s`. -/
def newProstWithModule (raw : RawModule σ) (s : σ) :
    Except NewErr (WasmModule σ) × σ × List Event :=
  match raw.initFn with
  | some f =>
    match f s with
    | none => (.error .initFailed, s, [Event.initCall false, Event.closeMod])
    | some s₁ => resolveExports raw s₁ [Event.initCall true]
  | none => resolveExports raw s []

/-- A full lifecycle trace: construct the instance, and when construction
succeeds run one `Execute` call on it; the trace concatenates the
construction events with the call events. -/
def constructThenExecute (raw : RawModule σ) (s : σ) (input : Bytes) :
    List Event :=
  match newProstWithModule raw s with
  | (.ok M, s₁, tr) => tr ++ (Execute M s₁ input).2.2
  | (.error _, _, tr) => tr

/-- Predicate naming which required export is absent from a raw module,
keyed by the Go export-name strings. -/
def requiredAbsent (raw : RawModule σ) (name : String) : Prop :=
  (name = "prost_malloc" ∧ raw.malloc? = none) ∨
  (name = "prost_free" ∧ raw.free? = none) ∨
  (name = "prost_execute" ∧ raw.prostExecute? = none) ∨
  (name = "prost_get_output_ptr" ∧ raw.prostGetOutputPtr? = none) ∨
  (name = "prost_get_output_len" ∧ raw.prostGetOutputLen? = none) ∨
  (name = "prost_clear_output" ∧ raw.prostClearOutput? = none)

/-- Faithfulness of wazero's `Memory.Read`: when it succeeds it returns
exactly the requested number of bytes. -/
def ReadWF (M : WasmModule σ) : Prop :=
  ∀ p n s bs, M.memRead p n s = some bs → bs.length = n

/-- Replace only the deallocator export of a module. -/
def setFree (M : WasmModule σ) (g : Nat → Nat → σ → Option σ) : WasmModule σ :=
  ⟨M.malloc, g, M.prost_execute, M.prost_get_output_ptr, M.prost_get_output_len,
   M.prost_clear_output, M.memWrite, M.memRead⟩

/-- Replace only the output-length accessor export of a module. -/
def setGetOutputLen (M : WasmModule σ) (g : σ → Option (Nat × σ)) : WasmModule σ :=
  ⟨M.malloc, M.free, M.prost_execute, M.prost_get_output_ptr, g,
   M.prost_clear_output, M.memWrite, M.memRead⟩

/-- Concrete all-succeeding module over state `Nat`: the allocator returns
pointer 16, the execute export declares 2 output bytes, the output
pointer is 64, and memory reads return blocks of byte 77. -/
def okMod : WasmModule Nat :=
  ⟨fun _ s => some (16, s), fun _ _ s => some s, fun _ _ s => some (2, s),
   fun s => some (64, s), fun s => some (2, s), fun s => some s,
   fun _ _ s => some s, fun _ n _ => some (List.replicate n 77)⟩

/-- Variant of `okMod` whose allocator returns the null pointer. -/
def nullAllocMod : WasmModule Nat :=
  ⟨fun _ s => some (0, s), okMod.free, okMod.prost_execute,
   okMod.prost_get_output_ptr, okMod.prost_get_output_len,
   okMod.prost_clear_output, okMod.memWrite, okMod.memRead⟩

/-- Variant of `okMod` whose memory writes are rejected. -/
def writeFailMod : WasmModule Nat :=
  ⟨okMod.malloc, okMod.free, okMod.prost_execute, okMod.prost_get_output_ptr,
   okMod.prost_get_output_len, okMod.prost_clear_output,
   fun _ _ _ => none, okMod.memRead⟩

/-- Variant of `okMod` whose memory reads fail. -/
def readFailMod : WasmModule Nat :=
  ⟨okMod.malloc, okMod.free, okMod.prost_execute, okMod.prost_get_output_ptr,
   okMod.prost_get_output_len, okMod.prost_clear_output,
   okMod.memWrite, fun _ _ _ => none⟩

/-- Variant of `okMod` whose clear export fails. -/
def clearFailMod : WasmModule Nat :=
  ⟨okMod.malloc, okMod.free, okMod.prost_execute, okMod.prost_get_output_ptr,
   okMod.prost_get_output_len, fun _ => none, okMod.memWrite, okMod.memRead⟩

/-- Variant of `okMod` whose execute export declares zero output bytes. -/
def zeroLenMod : WasmModule Nat :=
  ⟨okMod.malloc, okMod.free, fun _ _ s => some (0, s),
   okMod.prost_get_output_ptr, okMod.prost_get_output_len,
   okMod.prost_clear_output, okMod.memWrite, okMod.memRead⟩

/-- A deallocator that always fails. -/
def failFree : Nat → Nat → Nat → Option Nat := fun _ _ _ => none

/-- An output-length accessor that always fails. -/
def failLen : Nat → Option (Nat × Nat) := fun _ => none

/-- Raw instantiated module whose allocator export is absent. -/
def rawMissing : RawModule Nat :=
  ⟨none, none, some okMod.free, some okMod.prost_execute,
   some okMod.prost_get_output_ptr, some okMod.prost_get_output_len,
   some okMod.prost_clear_output, okMod.memWrite, okMod.memRead⟩

/-- Raw instantiated module with all exports whose `_initialize` fails. -/
def rawFailInit : RawModule Nat :=
  ⟨some (fun _ => none), some okMod.malloc, some okMod.free,
   some okMod.prost_execute, some okMod.prost_get_output_ptr,
   some okMod.prost_get_output_len, some okMod.prost_clear_output,
   okMod.memWrite, okMod.memRead⟩

/-- Raw instantiated module whose output-length export is absent. -/
def rawNoLen : RawModule Nat :=
  ⟨none, some okMod.malloc, some okMod.free, some okMod.prost_execute,
   some okMod.prost_get_output_ptr, none, some okMod.prost_clear_output,
   okMod.memWrite, okMod.memRead⟩

/-- Case analysis of `Execute` for non-empty input: one disjunct per
exit path of the Go code, giving the oracle calls made, the result and
the full event trace of that path. -/
theorem execute_shape (σ : Type) (M : WasmModule σ) (s : σ) (input : Bytes)
    (h : input.length ≠ 0) :
    (M.malloc input.length s = none ∧
      (Execute M s input).1 = .error (.allocFailed .callFailed) ∧
      (Execute M s input).2.2 = [Event.mallocCall input.length none]) ∨
    (∃ r s₁, M.malloc input.length s = some (r, s₁) ∧ u32 r = 0 ∧
      (Execute M s input).1 = .error (.allocFailed .mallocNull) ∧
      (Execute M s input).2.2 = [Event.mallocCall input.length (some 0)]) ∨
    (∃ r s₁ b, M.malloc input.length s = some (r, s₁) ∧ u32 r ≠ 0 ∧
      M.memWrite (u32 r) input s₁ = none ∧
      (Execute M s input).1 = .error (.allocFailed .writeFailed) ∧
      (Execute M s input).2.2 =
        [Event.mallocCall input.length (some (u32 r)),
         Event.memWriteOp (u32 r) input false,
         Event.freeCall (u32 r) input.length b]) ∨
    (∃ r s₁ s₂ b, M.malloc input.length s = some (r, s₁) ∧ u32 r ≠ 0 ∧
      M.memWrite (u32 r) input s₁ = some s₂ ∧
      M.prost_execute (u32 r) input.length s₂ = none ∧
      (Execute M s input).1 = .error .executeFailed ∧
      (Execute M s input).2.2 =
        [Event.mallocCall input.length (some (u32 r)),
         Event.memWriteOp (u32 r) input true,
         Event.executeCall (u32 r) input.length none,
         Event.freeCall (u32 r) (u32 input.length) b]) ∨
    (∃ r s₁ s₂ r₀ s₃ b, M.malloc input.length s = some (r, s₁) ∧ u32 r ≠ 0 ∧
      M.memWrite (u32 r) input s₁ = some s₂ ∧
      M.prost_execute (u32 r) input.length s₂ = some (r₀, s₃) ∧
      M.prost_get_output_ptr s₃ = none ∧
      (Execute M s input).1 = .error .getOutputPtrFailed ∧
      (Execute M s input).2.2 =
        [Event.mallocCall input.length (some (u32 r)),
         Event.memWriteOp (u32 r) input true,
         Event.executeCall (u32 r) input.length (some (u32 r₀)),
         Event.getOutputPtrCall none,
         Event.freeCall (u32 r) (u32 input.length) b]) ∨
    (∃ r s₁ s₂ r₀ s₃ r₁ s₄ b, M.malloc input.length s = some (r, s₁) ∧ u32 r ≠ 0 ∧
      M.memWrite (u32 r) input s₁ = some s₂ ∧
      M.prost_execute (u32 r) input.length s₂ = some (r₀, s₃) ∧
      M.prost_get_output_ptr s₃ = some (r₁, s₄) ∧
      M.memRead (u32 r₁) (u32 r₀) s₄ = none ∧
      (Execute M s input).1 = .error .memReadFailed ∧
      (Execute M s input).2.2 =
        [Event.mallocCall input.length (some (u32 r)),
         Event.memWriteOp (u32 r) input true,
         Event.executeCall (u32 r) input.length (some (u32 r₀)),
         Event.getOutputPtrCall (some (u32 r₁)),
         Event.memReadOp (u32 r₁) (u32 r₀) none,
         Event.freeCall (u32 r) (u32 input.length) b]) ∨
    (∃ r s₁ s₂ r₀ s₃ r₁ s₄ out b, M.malloc input.length s = some (r, s₁) ∧ u32 r ≠ 0 ∧
      M.memWrite (u32 r) input s₁ = some s₂ ∧
      M.prost_execute (u32 r) input.length s₂ = some (r₀, s₃) ∧
      M.prost_get_output_ptr s₃ = some (r₁, s₄) ∧
      M.memRead (u32 r₁) (u32 r₀) s₄ = some out ∧
      M.prost_clear_output s₄ = none ∧
      (Execute M s input).1 = .error .clearOutputFailed ∧
      (Execute M s input).2.2 =
        [Event.mallocCall input.length (some (u32 r)),
         Event.memWriteOp (u32 r) input true,
         Event.executeCall (u32 r) input.length (some (u32 r₀)),
         Event.getOutputPtrCall (some (u32 r₁)),
         Event.memReadOp (u32 r₁) (u32 r₀) (some out),
         Event.clearOutputCall false,
         Event.freeCall (u32 r) (u32 input.length) b]) ∨
    (∃ r s₁ s₂ r₀ s₃ r₁ s₄ out s₅ b, M.malloc input.length s = some (r, s₁) ∧ u32 r ≠ 0 ∧
      M.memWrite (u32 r) input s₁ = some s₂ ∧
      M.prost_execute (u32 r) input.length s₂ = some (r₀, s₃) ∧
      M.prost_get_output_ptr s₃ = some (r₁, s₄) ∧
      M.memRead (u32 r₁) (u32 r₀) s₄ = some out ∧
      M.prost_clear_output s₄ = some s₅ ∧
      (Execute M s input).1 = .ok out ∧
      (Execute M s input).2.2 =
        [Event.mallocCall input.length (some (u32 r)),
         Event.memWriteOp (u32 r) input true,
         Event.executeCall (u32 r) input.length (some (u32 r₀)),
         Event.getOutputPtrCall (some (u32 r₁)),
         Event.memReadOp (u32 r₁) (u32 r₀) (some out),
         Event.clearOutputCall true,
         Event.freeCall (u32 r) (u32 input.length) b]) := by
  rcases hM : M.malloc input.length s with _ | ⟨r, s₁⟩
  · exact Or.inl ⟨rfl, by simp [Execute, allocBytes, h, hM], by simp [Execute, allocBytes, h, hM]⟩
  · by_cases hp : u32 r = 0
    · refine Or.inr (Or.inl ⟨r, s₁, rfl, hp, ?_, ?_⟩) <;>
        simp [Execute, allocBytes, h, hM, hp]
    · rcases hW : M.memWrite (u32 r) input s₁ with _ | s₂
      · rcases hF : M.free (u32 r) input.length s₁ with _ | s₂
        · refine Or.inr (Or.inr (Or.inl ⟨r, s₁, false, rfl, hp, hW, ?_, ?_⟩)) <;>
            simp [Execute, allocBytes, h, hM, hp, hW, hF]
        · refine Or.inr (Or.inr (Or.inl ⟨r, s₁, true, rfl, hp, hW, ?_, ?_⟩)) <;>
            simp [Execute, allocBytes, h, hM, hp, hW, hF]
      · rcases hE : M.prost_execute (u32 r) input.length s₂ with _ | ⟨r₀, s₃⟩
        · rcases hF : M.free (u32 r) (u32 input.length) s₂ with _ | sx
          · refine Or.inr (Or.inr (Or.inr (Or.inl ⟨r, s₁, s₂, false, rfl, hp, hW, hE, ?_, ?_⟩))) <;>
              simp [Execute, allocBytes, freePtr, h, hM, hp, hW, hE, hF]
          · refine Or.inr (Or.inr (Or.inr (Or.inl ⟨r, s₁, s₂, true, rfl, hp, hW, hE, ?_, ?_⟩))) <;>
              simp [Execute, allocBytes, freePtr, h, hM, hp, hW, hE, hF]
        · rcases hP : M.prost_get_output_ptr s₃ with _ | ⟨r₁, s₄⟩
          · rcases hF : M.free (u32 r) (u32 input.length) s₃ with _ | sx
            · refine Or.inr (Or.inr (Or.inr (Or.inr (Or.inl
                ⟨r, s₁, s₂, r₀, s₃, false, rfl, hp, hW, hE, hP, ?_, ?_⟩)))) <;>
                simp [Execute, allocBytes, freePtr, h, hM, hp, hW, hE, hP, hF]
            · refine Or.inr (Or.inr (Or.inr (Or.inr (Or.inl
                ⟨r, s₁, s₂, r₀, s₃, true, rfl, hp, hW, hE, hP, ?_, ?_⟩)))) <;>
                simp [Execute, allocBytes, freePtr, h, hM, hp, hW, hE, hP, hF]
          · rcases hR : M.memRead (u32 r₁) (u32 r₀) s₄ with _ | out
            · rcases hF : M.free (u32 r) (u32 input.length) s₄ with _ | sx
              · refine Or.inr (Or.inr (Or.inr (Or.inr (Or.inr (Or.inl
                  ⟨r, s₁, s₂, r₀, s₃, r₁, s₄, false, rfl, hp, hW, hE, hP, hR, ?_, ?_⟩))))) <;>
                  simp [Execute, allocBytes, freePtr, h, hM, hp, hW, hE, hP, hR, hF]
              · refine Or.inr (Or.inr (Or.inr (Or.inr (Or.inr (Or.inl
                  ⟨r, s₁, s₂, r₀, s₃, r₁, s₄, true, rfl, hp, hW, hE, hP, hR, ?_, ?_⟩))))) <;>
                  simp [Execute, allocBytes, freePtr, h, hM, hp, hW, hE, hP, hR, hF]
            · rcases hC : M.prost_clear_output s₄ with _ | s₅
              · rcases hF : M.free (u32 r) (u32 input.length) s₄ with _ | sx
                · refine Or.inr (Or.inr (Or.inr (Or.inr (Or.inr (Or.inr (Or.inl
                    ⟨r, s₁, s₂, r₀, s₃, r₁, s₄, out, false, rfl, hp, hW, hE, hP, hR, hC, ?_, ?_⟩)))))) <;>
                    simp [Execute, allocBytes, freePtr, h, hM, hp, hW, hE, hP, hR, hC, hF]
                · refine Or.inr (Or.inr (Or.inr (Or.inr (Or.inr (Or.inr (Or.inl
                    ⟨r, s₁, s₂, r₀, s₃, r₁, s₄, out, true, rfl, hp, hW, hE, hP, hR, hC, ?_, ?_⟩)))))) <;>
                    simp [Execute, allocBytes, freePtr, h, hM, hp, hW, hE, hP, hR, hC, hF]
              · rcases hF : M.free (u32 r) (u32 input.length) s₅ with _ | sx
                · refine Or.inr (Or.inr (Or.inr (Or.inr (Or.inr (Or.inr (Or.inr
                    ⟨r, s₁, s₂, r₀, s₃, r₁, s₄, out, s₅, false, rfl, hp, hW, hE, hP, hR, hC, ?_, ?_⟩)))))) <;>
                    simp [Execute, allocBytes, freePtr, h, hM, hp, hW, hE, hP, hR, hC, hF]
                · refine Or.inr (Or.inr (Or.inr (Or.inr (Or.inr (Or.inr (Or.inr
                    ⟨r, s₁, s₂, r₀, s₃, r₁, s₄, out, s₅, true, rfl, hp, hW, hE, hP, hR, hC, ?_, ?_⟩)))))) <;>
                    simp [Execute, allocBytes, freePtr, h, hM, hp, hW, hE, hP, hR, hC, hF]

/-- Case analysis of `Execute` for an empty input: the allocator is
skipped, the input buffer is the zero pointer with zero length, and the
deferred free is a no-op, leaving one disjunct per exit path. -/
theorem execute_shape_empty (σ : Type) (M : WasmModule σ) (s : σ) :
    (M.prost_execute 0 0 s = none ∧
      (Execute M s []).1 = .error .executeFailed ∧
      (Execute M s []).2.2 = [Event.executeCall 0 0 none]) ∨
    (∃ r₀ s₂, M.prost_execute 0 0 s = some (r₀, s₂) ∧
      M.prost_get_output_ptr s₂ = none ∧
      (Execute M s []).1 = .error .getOutputPtrFailed ∧
      (Execute M s []).2.2 =
        [Event.executeCall 0 0 (some (u32 r₀)), Event.getOutputPtrCall none]) ∨
    (∃ r₀ s₂ r₁ s₃, M.prost_execute 0 0 s = some (r₀, s₂) ∧
      M.prost_get_output_ptr s₂ = some (r₁, s₃) ∧
      M.memRead (u32 r₁) (u32 r₀) s₃ = none ∧
      (Execute M s []).1 = .error .memReadFailed ∧
      (Execute M s []).2.2 =
        [Event.executeCall 0 0 (some (u32 r₀)),
         Event.getOutputPtrCall (some (u32 r₁)),
         Event.memReadOp (u32 r₁) (u32 r₀) none]) ∨
    (∃ r₀ s₂ r₁ s₃ out, M.prost_execute 0 0 s = some (r₀, s₂) ∧
      M.prost_get_output_ptr s₂ = some (r₁, s₃) ∧
      M.memRead (u32 r₁) (u32 r₀) s₃ = some out ∧
      M.prost_clear_output s₃ = none ∧
      (Execute M s []).1 = .error .clearOutputFailed ∧
      (Execute M s []).2.2 =
        [Event.executeCall 0 0 (some (u32 r₀)),
         Event.getOutputPtrCall (some (u32 r₁)),
         Event.memReadOp (u32 r₁) (u32 r₀) (some out),
         Event.clearOutputCall false]) ∨
    (∃ r₀ s₂ r₁ s₃ out s₄, M.prost_execute 0 0 s = some (r₀, s₂) ∧
      M.prost_get_output_ptr s₂ = some (r₁, s₃) ∧
      M.memRead (u32 r₁) (u32 r₀) s₃ = some out ∧
      M.prost_clear_output s₃ = some s₄ ∧
      (Execute M s []).1 = .ok out ∧
      (Execute M s []).2.2 =
        [Event.executeCall 0 0 (some (u32 r₀)),
         Event.getOutputPtrCall (some (u32 r₁)),
         Event.memReadOp (u32 r₁) (u32 r₀) (some out),
         Event.clearOutputCall true]) := by
  rcases hE : M.prost_execute 0 0 s with _ | ⟨r₀, s₂⟩
  · exact Or.inl ⟨rfl, by simp [Execute, allocBytes, freePtr, hE],
      by simp [Execute, allocBytes, freePtr, hE]⟩
  · rcases hP : M.prost_get_output_ptr s₂ with _ | ⟨r₁, s₃⟩
    · refine Or.inr (Or.inl ⟨r₀, s₂, rfl, hP, ?_, ?_⟩) <;>
        simp [Execute, allocBytes, freePtr, hE, hP]
    · rcases hR : M.memRead (u32 r₁) (u32 r₀) s₃ with _ | out
      · refine Or.inr (Or.inr (Or.inl ⟨r₀, s₂, r₁, s₃, rfl, hP, hR, ?_, ?_⟩)) <;>
          simp [Execute, allocBytes, freePtr, hE, hP, hR]
      · rcases hC : M.prost_clear_output s₃ with _ | s₄
        · refine Or.inr (Or.inr (Or.inr (Or.inl
            ⟨r₀, s₂, r₁, s₃, out, rfl, hP, hR, hC, ?_, ?_⟩))) <;>
            simp [Execute, allocBytes, freePtr, hE, hP, hR, hC]
        · refine Or.inr (Or.inr (Or.inr (Or.inr
            ⟨r₀, s₂, r₁, s₃, out, s₄, rfl, hP, hR, hC, ?_, ?_⟩))) <;>
            simp [Execute, allocBytes, freePtr, hE, hP, hR, hC]

theorem readWF_okMod : ReadWF okMod := by
  intro p n s bs h
  simp only [okMod] at h
  injection h with h'
  subst h'
  simp

theorem readWF_zeroLenMod : ReadWF zeroLenMod := by
  intro p n s bs h
  simp only [zeroLenMod, okMod] at h
  injection h with h'
  subst h'
  simp

theorem execute_result_ignores_free (σ : Type) (M : WasmModule σ)
    (g : Nat → Nat → σ → Option σ) (s : σ) (input : Bytes) :
    (Execute (setFree M g) s input).1 = (Execute M s input).1 := by
  by_cases h : input.length = 0
  · rcases hE : M.prost_execute 0 input.length s with _ | ⟨r₀, s₂⟩
    · simp [Execute, allocBytes, freePtr, setFree, h, hE]
    · rcases hP : M.prost_get_output_ptr s₂ with _ | ⟨r₁, s₃⟩
      · simp [Execute, allocBytes, freePtr, setFree, h, hE, hP]
      · rcases hR : M.memRead (u32 r₁) (u32 r₀) s₃ with _ | o
        · simp [Execute, allocBytes, freePtr, setFree, h, hE, hP, hR]
        · rcases hC : M.prost_clear_output s₃ with _ | s₄ <;>
            simp [Execute, allocBytes, freePtr, setFree, h, hE, hP, hR, hC]
  · rcases hM : M.malloc input.length s with _ | ⟨r, s₁⟩
    · simp [Execute, allocBytes, setFree, h, hM]
    · by_cases hp : u32 r = 0
      · simp [Execute, allocBytes, setFree, h, hM, hp]
      · rcases hW : M.memWrite (u32 r) input s₁ with _ | s₂
        · rcases hF : M.free (u32 r) input.length s₁ with _ | sx <;>
            rcases hG : g (u32 r) input.length s₁ with _ | sy <;>
            simp [Execute, allocBytes, setFree, h, hM, hp, hW, hF, hG]
        · rcases hE : M.prost_execute (u32 r) input.length s₂ with _ | ⟨r₀, s₃⟩
          · simp [Execute, allocBytes, freePtr, setFree, h, hM, hp, hW, hE]
          · rcases hP : M.prost_get_output_ptr s₃ with _ | ⟨r₁, s₄⟩
            · simp [Execute, allocBytes, freePtr, setFree, h, hM, hp, hW, hE, hP]
            · rcases hR : M.memRead (u32 r₁) (u32 r₀) s₄ with _ | o
              · simp [Execute, allocBytes, freePtr, setFree, h, hM, hp, hW, hE, hP, hR]
              · rcases hC : M.prost_clear_output s₄ with _ | s₅ <;>
                  simp [Execute, allocBytes, freePtr, setFree, h, hM, hp, hW, hE, hP, hR, hC]

theorem resolveExports_missing (σ : Type) (raw : RawModule σ) (s : σ) (tr : List Event)
    (habs : raw.malloc? = none ∨ raw.free? = none ∨ raw.prostExecute? = none ∨
      raw.prostGetOutputPtr? = none ∨ raw.prostGetOutputLen? = none ∨
      raw.prostClearOutput? = none) :
    ∃ name, (resolveExports raw s tr).1 = .error (.missingExport name) ∧
      requiredAbsent raw name ∧
      Event.closeMod ∈ (resolveExports raw s tr).2.2 := by
  rcases h1 : raw.malloc? with _ | mal
  · exact ⟨"prost_malloc", by simp [resolveExports, h1], Or.inl ⟨rfl, h1⟩,
      by simp [resolveExports, h1]⟩
  rcases h2 : raw.free? with _ | fr
  · exact ⟨"prost_free", by simp [resolveExports, h1, h2], Or.inr (Or.inl ⟨rfl, h2⟩),
      by simp [resolveExports, h1, h2]⟩
  rcases h3 : raw.prostExecute? with _ | ex
  · exact ⟨"prost_execute", by simp [resolveExports, h1, h2, h3],
      Or.inr (Or.inr (Or.inl ⟨rfl, h3⟩)), by simp [resolveExports, h1, h2, h3]⟩
  rcases h4 : raw.prostGetOutputPtr? with _ | gp
  · exact ⟨"prost_get_output_ptr", by simp [resolveExports, h1, h2, h3, h4],
      Or.inr (Or.inr (Or.inr (Or.inl ⟨rfl, h4⟩))),
      by simp [resolveExports, h1, h2, h3, h4]⟩
  rcases h5 : raw.prostGetOutputLen? with _ | gl
  · exact ⟨"prost_get_output_len", by simp [resolveExports, h1, h2, h3, h4, h5],
      Or.inr (Or.inr (Or.inr (Or.inr (Or.inl ⟨rfl, h5⟩)))),
      by simp [resolveExports, h1, h2, h3, h4, h5]⟩
  rcases h6 : raw.prostClearOutput? with _ | co
  · exact ⟨"prost_clear_output", by simp [resolveExports, h1, h2, h3, h4, h5, h6],
      Or.inr (Or.inr (Or.inr (Or.inr (Or.inr ⟨rfl, h6⟩)))),
      by simp [resolveExports, h1, h2, h3, h4, h5, h6]⟩
  simp [h1, h2, h3, h4, h5, h6] at habs

theorem resolveExports_trace_shape (σ : Type) (raw : RawModule σ) (s : σ)
    (tr : List Event) :
    ∃ rest, (resolveExports raw s tr).2.2 = tr ++ rest ∧
      rest.countP Event.isInit = 0 := by
  rcases h1 : raw.malloc? with _ | mal
  · exact ⟨[Event.closeMod], by simp [resolveExports, h1], by simp [Event.isInit]⟩
  rcases h2 : raw.free? with _ | fr
  · exact ⟨[Event.closeMod], by simp [resolveExports, h1, h2], by simp [Event.isInit]⟩
  rcases h3 : raw.prostExecute? with _ | ex
  · exact ⟨[Event.closeMod], by simp [resolveExports, h1, h2, h3], by simp [Event.isInit]⟩
  rcases h4 : raw.prostGetOutputPtr? with _ | gp
  · exact ⟨[Event.closeMod], by simp [resolveExports, h1, h2, h3, h4], by simp [Event.isInit]⟩
  rcases h5 : raw.prostGetOutputLen? with _ | gl
  · exact ⟨[Event.closeMod], by simp [resolveExports, h1, h2, h3, h4, h5], by simp [Event.isInit]⟩
  rcases h6 : raw.prostClearOutput? with _ | co
  · exact ⟨[Event.closeMod], by simp [resolveExports, h1, h2, h3, h4, h5, h6], by simp [Event.isInit]⟩
  exact ⟨[], by simp [resolveExports, h1, h2, h3, h4, h5, h6], rfl⟩

theorem execute_no_init (σ : Type) (M : WasmModule σ) (s : σ) (input : Bytes) :
    (Execute M s input).2.2.countP Event.isInit = 0 := by
  by_cases h : input.length = 0
  · have h' : input = [] := List.length_eq_zero.mp h
    subst h'
    rcases execute_shape_empty σ M s with ⟨_, _, h2⟩ | ⟨r₀, s₂, _, _, _, h2⟩ |
      ⟨r₀, s₂, r₁, s₃, _, _, _, _, h2⟩ | ⟨r₀, s₂, r₁, s₃, o, _, _, _, _, _, h2⟩ |
      ⟨r₀, s₂, r₁, s₃, o, s₄, _, _, _, _, _, h2⟩ <;>
    simp [h2, Event.isInit]
  · rcases execute_shape σ M s input h with ⟨_, _, h2⟩ | ⟨r, s₁, _, _, _, h2⟩ |
      ⟨r, s₁, b, _, _, _, _, h2⟩ | ⟨r, s₁, s₂, b, _, _, _, _, _, h2⟩ |
      ⟨r, s₁, s₂, r₀, s₃, b, _, _, _, _, _, _, h2⟩ |
      ⟨r, s₁, s₂, r₀, s₃, r₁, s₄, b, _, _, _, _, _, _, _, h2⟩ |
      ⟨r, s₁, s₂, r₀, s₃, r₁, s₄, o, b, _, _, _, _, _, _, _, _, h2⟩ |
      ⟨r, s₁, s₂, r₀, s₃, r₁, s₄, o, s₅, b, _, _, _, _, _, _, _, _, h2⟩ <;>
    simp [h2, Event.isInit]

/-- C6: a required export absent after instantiation (with `_initialize`,
if present, succeeding) makes construction fail with an error naming an
absent export, after closing the instance, returning no usable value. -/
theorem newProst_missing_export_fails (σ : Type) (raw : RawModule σ) (s : σ)
    (hinit : ∀ f, raw.initFn = some f → f s ≠ none)
    (habs : raw.malloc? = none ∨ raw.free? = none ∨ raw.prostExecute? = none ∨
      raw.prostGetOutputPtr? = none ∨ raw.prostGetOutputLen? = none ∨
      raw.prostClearOutput? = none) :
    ∃ name, (newProstWithModule raw s).1 = .error (.missingExport name) ∧
      requiredAbsent raw name ∧
      Event.closeMod ∈ (newProstWithModule raw s).2.2 := by
  rcases h0 : raw.initFn with _ | f
  · have h := resolveExports_missing σ raw s [] habs
    simpa [newProstWithModule, h0] using h
  · rcases hfs : f s with _ | s₁
    · exact absurd hfs (hinit f h0)
    · have h := resolveExports_missing σ raw s₁ [Event.initCall true] habs
      simpa [newProstWithModule, h0, hfs] using h

/-- C7: when the module exposes `_initialize`, the combined
construct-then-call trace starts with the initialization call and
contains it exactly once (so it precedes every export call of the
instance), and a failing `_initialize` closes the instance and makes
construction fail with a fatal error, producing no instance. -/
theorem newProst_init_semantics (σ : Type) (raw : RawModule σ) (s : σ)
    (input : Bytes) (f : σ → Option σ) (hf : raw.initFn = some f) :
    (∃ b, (constructThenExecute raw s input).head? = some (Event.initCall b)) ∧
    (constructThenExecute raw s input).countP Event.isInit = 1 ∧
    (f s = none → (newProstWithModule raw s).1 = .error .initFailed ∧
      Event.closeMod ∈ (newProstWithModule raw s).2.2) := by
  rcases hfs : f s with _ | s₁
  · refine ⟨⟨false, ?_⟩, ?_, fun _ => ⟨?_, ?_⟩⟩ <;>
      simp [constructThenExecute, newProstWithModule, hf, hfs, Event.isInit]
  · obtain ⟨rest, hrest, hcnt⟩ :=
      resolveExports_trace_shape σ raw s₁ [Event.initCall true]
    rcases hres : resolveExports raw s₁ [Event.initCall true] with ⟨res, s', tr'⟩
    have htr' : tr' = Event.initCall true :: rest := by
      rw [hres] at hrest; simpa using hrest
    rcases res with e | Mo
    · have hct : constructThenExecute raw s input = tr' := by
        simp [constructThenExecute, newProstWithModule, hf, hfs, hres]
      refine ⟨⟨true, ?_⟩, ?_, fun hc => absurd hc (by simp)⟩
      · rw [hct, htr']; rfl
      · rw [hct, htr']
        simp [List.countP_cons, Event.isInit, hcnt]
    · have hct : constructThenExecute raw s input =
          tr' ++ (Execute Mo s' input).2.2 := by
        simp [constructThenExecute, newProstWithModule, hf, hfs, hres]
      refine ⟨⟨true, ?_⟩, ?_, fun hc => absurd hc (by simp)⟩
      · rw [hct, htr']; rfl
      · rw [hct, htr']
        simp [List.countP_append, List.countP_cons, Event.isInit, hcnt,
          execute_no_init]

/-- C4: for an empty input `Execute` never invokes the allocator, and the
execute export is still invoked, with the zero pointer and zero length as
the input buffer. -/
theorem execute_empty_input_skips_allocator (σ : Type) (M : WasmModule σ) (s : σ) :
    (Execute M s []).2.2.countP Event.isMalloc = 0 ∧
    ∃ r, (Execute M s []).2.2.filter Event.isExecute = [Event.executeCall 0 0 r] := by
  rcases execute_shape_empty σ M s with ⟨_, _, h2⟩ | ⟨r₀, s₂, _, _, _, h2⟩ |
    ⟨r₀, s₂, r₁, s₃, _, _, _, _, h2⟩ | ⟨r₀, s₂, r₁, s₃, o, _, _, _, _, _, h2⟩ |
    ⟨r₀, s₂, r₁, s₃, o, s₄, _, _, _, _, _, h2⟩ <;>
  simp [h2, Event.isMalloc, Event.isExecute]

/-- C1: when `Execute` succeeds, the returned bytes are exactly the bytes
read from instance memory at the pointer obtained from the output-pointer
export, and their number equals the (32-bit) value returned by the execute
export; `ReadWF` is wazero's guarantee that a successful memory read
returns exactly the requested number of bytes.  Value semantics make the
returned list an independent copy of that snapshot. -/
theorem execute_returns_full_copy (σ : Type) (M : WasmModule σ) (s : σ)
    (input out : Bytes) (hWF : ReadWF M)
    (hok : (Execute M s input).1 = .ok out) :
    ∃ p n len ptr,
      Event.executeCall p n (some len) ∈ (Execute M s input).2.2 ∧
      Event.getOutputPtrCall (some ptr) ∈ (Execute M s input).2.2 ∧
      Event.memReadOp ptr len (some out) ∈ (Execute M s input).2.2 ∧
      out.length = len := by
  by_cases h : input.length = 0
  · have h' : input = [] := List.length_eq_zero.mp h
    subst h'
    rcases execute_shape_empty σ M s with ⟨_, h1, _⟩ | ⟨r₀, s₂, _, _, h1, _⟩ |
      ⟨r₀, s₂, r₁, s₃, _, _, _, h1, _⟩ | ⟨r₀, s₂, r₁, s₃, o, _, _, _, _, h1, _⟩ |
      ⟨r₀, s₂, r₁, s₃, o, s₄, hE, hP, hR, hC, h1, h2⟩
    · rw [h1] at hok; cases hok
    · rw [h1] at hok; cases hok
    · rw [h1] at hok; cases hok
    · rw [h1] at hok; cases hok
    · rw [h1] at hok
      have ho : o = out := by injection hok
      subst ho
      exact ⟨0, 0, u32 r₀, u32 r₁, by simp [h2], by simp [h2], by simp [h2],
        hWF _ _ _ _ hR⟩
  · rcases execute_shape σ M s input h with ⟨_, h1, _⟩ | ⟨r, s₁, _, _, h1, _⟩ |
      ⟨r, s₁, b, _, _, _, h1, _⟩ | ⟨r, s₁, s₂, b, _, _, _, _, h1, _⟩ |
      ⟨r, s₁, s₂, r₀, s₃, b, _, _, _, _, _, h1, _⟩ |
      ⟨r, s₁, s₂, r₀, s₃, r₁, s₄, b, _, _, _, _, _, _, h1, _⟩ |
      ⟨r, s₁, s₂, r₀, s₃, r₁, s₄, o, b, _, _, _, _, _, _, _, h1, _⟩ |
      ⟨r, s₁, s₂, r₀, s₃, r₁, s₄, o, s₅, b, hM, hp, hW, hE, hP, hR, hC, h1, h2⟩
    · rw [h1] at hok; cases hok
    · rw [h1] at hok; cases hok
    · rw [h1] at hok; cases hok
    · rw [h1] at hok; cases hok
    · rw [h1] at hok; cases hok
    · rw [h1] at hok; cases hok
    · rw [h1] at hok; cases hok
    · rw [h1] at hok
      have ho : o = out := by injection hok
      subst ho
      exact ⟨u32 r, input.length, u32 r₀, u32 r₁, by simp [h2], by simp [h2],
        by simp [h2], hWF _ _ _ _ hR⟩

/-- C2: once the allocator has returned a nonzero (32-bit) pointer for a
non-empty input, the deallocator is invoked exactly once during the call,
with that pointer and the input's byte length, whatever path `Execute`
takes afterwards. -/
theorem execute_frees_input_exactly_once (σ : Type) (M : WasmModule σ) (s : σ)
    (input : Bytes) (r : Nat) (s₁ : σ)
    (hlen : input.length < U32MOD) (hne : input.length ≠ 0)
    (hm : M.malloc input.length s = some (r, s₁)) (hr : u32 r ≠ 0) :
    ∃ b, (Execute M s input).2.2.filter Event.isFree =
      [Event.freeCall (u32 r) input.length b] := by
  have hu : u32 input.length = input.length := Nat.mod_eq_of_lt hlen
  rcases execute_shape σ M s input hne with ⟨h0, _, _⟩ | ⟨r', s₁', hm', hp, _, _⟩ |
    ⟨r', s₁', b, hm', hp, hW, _, h2⟩ | ⟨r', s₁', s₂, b, hm', hp, hW, hE, _, h2⟩ |
    ⟨r', s₁', s₂, r₀, s₃, b, hm', hp, hW, hE, hP, _, h2⟩ |
    ⟨r', s₁', s₂, r₀, s₃, r₁, s₄, b, hm', hp, hW, hE, hP, hR, _, h2⟩ |
    ⟨r', s₁', s₂, r₀, s₃, r₁, s₄, o, b, hm', hp, hW, hE, hP, hR, hC, _, h2⟩ |
    ⟨r', s₁', s₂, r₀, s₃, r₁, s₄, o, s₅, b, hm', hp, hW, hE, hP, hR, hC, _, h2⟩
  · rw [hm] at h0; cases h0
  · rw [hm] at hm'
    obtain ⟨rfl, rfl⟩ : r = r' ∧ s₁ = s₁' := by simpa using hm'
    exact absurd hp hr
  all_goals {
    rw [hm] at hm'
    obtain ⟨rfl, rfl⟩ : r = r' ∧ s₁ = s₁' := by simpa using hm'
    exact ⟨b, by simp [h2, hu, Event.isFree]⟩ }

/-- C5: for a non-empty input, a null allocator return makes `Execute`
fail with an allocation error without ever invoking the execute export,
and a rejected write of the input into instance memory makes it fail with
a memory-write error after freeing the just-allocated region. -/
theorem execute_alloc_error_paths (σ : Type) (M : WasmModule σ) (s : σ)
    (input : Bytes) (hne : input.length ≠ 0) :
    (∀ s₁, M.malloc input.length s = some (0, s₁) →
      (Execute M s input).1 = .error (.allocFailed .mallocNull) ∧
      (Execute M s input).2.2.countP Event.isExecute = 0) ∧
    (∀ r s₁, M.malloc input.length s = some (r, s₁) → u32 r ≠ 0 →
      M.memWrite (u32 r) input s₁ = none →
      (Execute M s input).1 = .error (.allocFailed .writeFailed) ∧
      ∃ b, Event.freeCall (u32 r) input.length b ∈ (Execute M s input).2.2) := by
  constructor
  · intro s₁ hm
    have hz : u32 0 = 0 := Nat.zero_mod _
    rcases execute_shape σ M s input hne with ⟨h0, _, _⟩ | ⟨r', s₁', hm', hp, h1, h2⟩ |
      ⟨r', s₁', b, hm', hp, hW, _, _⟩ | ⟨r', s₁', s₂, b, hm', hp, hW, hE, _, _⟩ |
      ⟨r', s₁', s₂, r₀, s₃, b, hm', hp, hW, hE, hP, _, _⟩ |
      ⟨r', s₁', s₂, r₀, s₃, r₁, s₄, b, hm', hp, hW, hE, hP, hR, _, _⟩ |
      ⟨r', s₁', s₂, r₀, s₃, r₁, s₄, o, b, hm', hp, hW, hE, hP, hR, hC, _, _⟩ |
      ⟨r', s₁', s₂, r₀, s₃, r₁, s₄, o, s₅, b, hm', hp, hW, hE, hP, hR, hC, _, _⟩
    · rw [hm] at h0; cases h0
    · rw [hm] at hm'
      obtain ⟨h3, rfl⟩ : (0 : Nat) = r' ∧ s₁ = s₁' := by simpa using hm'
      subst h3
      exact ⟨h1, by simp [h2, Event.isExecute]⟩
    all_goals {
      rw [hm] at hm'
      obtain ⟨h3, rfl⟩ : (0 : Nat) = r' ∧ s₁ = s₁' := by simpa using hm'
      subst h3
      exact absurd hz hp }
  · intro r s₁ hm hr hW0
    rcases execute_shape σ M s input hne with ⟨h0, _, _⟩ | ⟨r', s₁', hm', hp, h1, h2⟩ |
      ⟨r', s₁', b, hm', hp, hW, h1, h2⟩ | ⟨r', s₁', s₂, b, hm', hp, hW, hE, _, _⟩ |
      ⟨r', s₁', s₂, r₀, s₃, b, hm', hp, hW, hE, hP, _, _⟩ |
      ⟨r', s₁', s₂, r₀, s₃, r₁, s₄, b, hm', hp, hW, hE, hP, hR, _, _⟩ |
      ⟨r', s₁', s₂, r₀, s₃, r₁, s₄, o, b, hm', hp, hW, hE, hP, hR, hC, _, _⟩ |
      ⟨r', s₁', s₂, r₀, s₃, r₁, s₄, o, s₅, b, hm', hp, hW, hE, hP, hR, hC, _, _⟩
    · rw [hm] at h0; cases h0
    all_goals {
      rw [hm] at hm'
      obtain ⟨rfl, rfl⟩ : r = r' ∧ s₁ = s₁' := by simpa using hm'
      first
      | exact absurd hp hr
      | exact ⟨h1, b, by simp [h2]⟩
      | (rw [hW0] at hW; cases hW) }

/-- C8: a declared output length of zero on a call where every step
succeeds yields the empty byte sequence as a successful (non-error)
result. -/
theorem execute_zero_len_gives_empty (σ : Type) (M : WasmModule σ) (s : σ)
    (input out : Bytes) (p n : Nat) (hWF : ReadWF M)
    (hok : (Execute M s input).1 = .ok out)
    (hev : Event.executeCall p n (some 0) ∈ (Execute M s input).2.2) :
    (Execute M s input).1 = .ok ([] : Bytes) := by
  by_cases h : input.length = 0
  · have h' : input = [] := List.length_eq_zero.mp h
    subst h'
    rcases execute_shape_empty σ M s with ⟨_, h1, _⟩ | ⟨r₀, s₂, _, _, h1, _⟩ |
      ⟨r₀, s₂, r₁, s₃, _, _, _, h1, _⟩ | ⟨r₀, s₂, r₁, s₃, o, _, _, _, _, h1, _⟩ |
      ⟨r₀, s₂, r₁, s₃, o, s₄, hE, hP, hR, hC, h1, h2⟩
    · rw [h1] at hok; cases hok
    · rw [h1] at hok; cases hok
    · rw [h1] at hok; cases hok
    · rw [h1] at hok; cases hok
    · rw [h2] at hev
      have h0 : u32 r₀ = 0 := by
        simp [Event.executeCall.injEq] at hev
        omega
      have hlen : o.length = 0 := by
        have := hWF _ _ _ _ hR
        omega
      have ho : o = [] := List.length_eq_zero.mp hlen
      rw [h1, ho]
  · rcases execute_shape σ M s input h with ⟨_, h1, h2⟩ | ⟨r, s₁, _, _, h1, h2⟩ |
      ⟨r, s₁, b, _, _, _, h1, h2⟩ | ⟨r, s₁, s₂, b, _, _, _, _, h1, h2⟩ |
      ⟨r, s₁, s₂, r₀, s₃, b, _, _, _, _, _, h1, h2⟩ |
      ⟨r, s₁, s₂, r₀, s₃, r₁, s₄, b, _, _, _, _, _, _, h1, h2⟩ |
      ⟨r, s₁, s₂, r₀, s₃, r₁, s₄, o, b, _, _, _, _, _, _, _, h1, h2⟩ |
      ⟨r, s₁, s₂, r₀, s₃, r₁, s₄, o, s₅, b, hM, hp, hW, hE, hP, hR, hC, h1, h2⟩
    · rw [h1] at hok; cases hok
    · rw [h1] at hok; cases hok
    · rw [h1] at hok; cases hok
    · rw [h1] at hok; cases hok
    · rw [h1] at hok; cases hok
    · rw [h1] at hok; cases hok
    · rw [h1] at hok; cases hok
    · rw [h2] at hev
      have h0 : u32 r₀ = 0 := by
        simp [Event.executeCall.injEq] at hev
        omega
      have hlen : o.length = 0 := by
        have := hWF _ _ _ _ hR
        omega
      have ho : o = [] := List.length_eq_zero.mp hlen
      rw [h1, ho]

/-- Amended C3: deallocation is best-effort (its failure never changes the
call's result), but output-clear is not: a failed read returns its error
without invoking the clear export, and a failed clear overrides the
already-copied bytes with an error. -/
theorem execute_cleanup_behavior (σ : Type) (M : WasmModule σ) (s : σ)
    (input : Bytes) (g : Nat → Nat → σ → Option σ) :
    ((Execute M s input).1 = .error .memReadFailed →
      (Execute M s input).2.2.countP Event.isClearOutput = 0) ∧
    (∀ p n q, Event.memReadOp p n (some q) ∈ (Execute M s input).2.2 →
      Event.clearOutputCall false ∈ (Execute M s input).2.2 →
      (Execute M s input).1 = .error .clearOutputFailed) ∧
    (Execute (setFree M g) s input).1 = (Execute M s input).1 := by
  refine ⟨?_, ?_, execute_result_ignores_free σ M g s input⟩
  · by_cases h : input.length = 0
    · have h' : input = [] := List.length_eq_zero.mp h
      subst h'
      rcases execute_shape_empty σ M s with ⟨_, h1, h2⟩ | ⟨r₀, s₂, _, _, h1, h2⟩ |
        ⟨r₀, s₂, r₁, s₃, _, _, _, h1, h2⟩ | ⟨r₀, s₂, r₁, s₃, o, _, _, _, _, h1, h2⟩ |
        ⟨r₀, s₂, r₁, s₃, o, s₄, _, _, _, _, h1, h2⟩ <;>
      { intro hres
        first
        | (simp [h2, Event.isClearOutput]; done)
        | (rw [h1] at hres; simp at hres) }
    · rcases execute_shape σ M s input h with ⟨_, h1, h2⟩ | ⟨r, s₁, _, _, h1, h2⟩ |
        ⟨r, s₁, b, _, _, _, h1, h2⟩ | ⟨r, s₁, s₂, b, _, _, _, _, h1, h2⟩ |
        ⟨r, s₁, s₂, r₀, s₃, b, _, _, _, _, _, h1, h2⟩ |
        ⟨r, s₁, s₂, r₀, s₃, r₁, s₄, b, _, _, _, _, _, _, h1, h2⟩ |
        ⟨r, s₁, s₂, r₀, s₃, r₁, s₄, o, b, _, _, _, _, _, _, _, h1, h2⟩ |
        ⟨r, s₁, s₂, r₀, s₃, r₁, s₄, o, s₅, b, _, _, _, _, _, _, _, h1, h2⟩ <;>
      { intro hres
        first
        | (simp [h2, Event.isClearOutput]; done)
        | (rw [h1] at hres; simp at hres) }
  · by_cases h : input.length = 0
    · have h' : input = [] := List.length_eq_zero.mp h
      subst h'
      rcases execute_shape_empty σ M s with ⟨_, h1, h2⟩ | ⟨r₀, s₂, _, _, h1, h2⟩ |
        ⟨r₀, s₂, r₁, s₃, _, _, _, h1, h2⟩ | ⟨r₀, s₂, r₁, s₃, o, _, _, _, _, h1, h2⟩ |
        ⟨r₀, s₂, r₁, s₃, o, s₄, _, _, _, _, h1, h2⟩ <;>
      { intro p n q hmem hcl
        first
        | exact h1
        | (rw [h2] at hmem; simp at hmem; done)
        | (rw [h2] at hcl; simp at hcl; done) }
    · rcases execute_shape σ M s input h with ⟨_, h1, h2⟩ | ⟨r, s₁, _, _, h1, h2⟩ |
        ⟨r, s₁, b, _, _, _, h1, h2⟩ | ⟨r, s₁, s₂, b, _, _, _, _, h1, h2⟩ |
        ⟨r, s₁, s₂, r₀, s₃, b, _, _, _, _, _, h1, h2⟩ |
        ⟨r, s₁, s₂, r₀, s₃, r₁, s₄, b, _, _, _, _, _, _, h1, h2⟩ |
        ⟨r, s₁, s₂, r₀, s₃, r₁, s₄, o, b, _, _, _, _, _, _, _, h1, h2⟩ |
        ⟨r, s₁, s₂, r₀, s₃, r₁, s₄, o, s₅, b, _, _, _, _, _, _, _, h1, h2⟩ <;>
      { intro p n q hmem hcl
        first
        | exact h1
        | (rw [h2] at hmem; simp at hmem; done)
        | (rw [h2] at hcl; simp at hcl; done) }

/-- C10: `Execute` never invokes the output-length accessor, its outcome
is entirely independent of that export, and yet construction refuses a
module lacking it. -/
theorem execute_ignores_output_len_export (σ : Type) (M : WasmModule σ)
    (s : σ) (input : Bytes) :
    (Execute M s input).2.2.countP Event.isGetOutputLen = 0 ∧
    (∀ g, Execute (setGetOutputLen M g) s input = Execute M s input) ∧
    (∀ (raw : RawModule σ) (t : σ), raw.prostGetOutputLen? = none →
      ∀ M', (newProstWithModule raw t).1 ≠ .ok M') := by
  refine ⟨?_, fun g => rfl, ?_⟩
  · by_cases h : input.length = 0
    · have h' : input = [] := List.length_eq_zero.mp h
      subst h'
      rcases execute_shape_empty σ M s with ⟨_, _, h2⟩ | ⟨r₀, s₂, _, _, _, h2⟩ |
        ⟨r₀, s₂, r₁, s₃, _, _, _, _, h2⟩ | ⟨r₀, s₂, r₁, s₃, o, _, _, _, _, _, h2⟩ |
        ⟨r₀, s₂, r₁, s₃, o, s₄, _, _, _, _, _, h2⟩ <;>
      simp [h2, Event.isGetOutputLen]
    · rcases execute_shape σ M s input h with ⟨_, _, h2⟩ | ⟨r, s₁, _, _, _, h2⟩ |
        ⟨r, s₁, b, _, _, _, _, h2⟩ | ⟨r, s₁, s₂, b, _, _, _, _, _, h2⟩ |
        ⟨r, s₁, s₂, r₀, s₃, b, _, _, _, _, _, _, h2⟩ |
        ⟨r, s₁, s₂, r₀, s₃, r₁, s₄, b, _, _, _, _, _, _, _, h2⟩ |
        ⟨r, s₁, s₂, r₀, s₃, r₁, s₄, o, b, _, _, _, _, _, _, _, _, h2⟩ |
        ⟨r, s₁, s₂, r₀, s₃, r₁, s₄, o, s₅, b, _, _, _, _, _, _, _, _, h2⟩ <;>
      simp [h2, Event.isGetOutputLen]
  · intro raw t hnone M' hok
    unfold newProstWithModule at hok
    split at hok
    · split at hok
      · simp at hok
      · unfold resolveExports at hok
        repeat' split at hok
        all_goals simp_all
    · unfold resolveExports at hok
      repeat' split at hok
      all_goals simp_all

/-- C3 counterexample: with a module whose memory read fails, `Execute`
returns the read error without ever invoking the output-clear export; and
with a module whose clear export fails after a successful read, `Execute`
returns an error instead of the already-copied bytes. -/
theorem execute_cleanup_claim_cex :
    ((Execute readFailMod 0 [9]).1 = .error .memReadFailed ∧
     (Execute readFailMod 0 [9]).2.2.countP Event.isClearOutput = 0) ∧
    (Event.memReadOp 64 2 (some [77, 77]) ∈ (Execute clearFailMod 0 [9]).2.2 ∧
     (Execute clearFailMod 0 [9]).1 = .error .clearOutputFailed) :=
  ⟨⟨rfl, rfl⟩, by decide, rfl⟩

theorem execute_returns_full_copy_witness :
    ∃ p n len ptr,
      Event.executeCall p n (some len) ∈ (Execute okMod 0 [9]).2.2 ∧
      Event.getOutputPtrCall (some ptr) ∈ (Execute okMod 0 [9]).2.2 ∧
      Event.memReadOp ptr len (some [77, 77]) ∈ (Execute okMod 0 [9]).2.2 ∧
      ([77, 77] : Bytes).length = len :=
  execute_returns_full_copy Nat okMod 0 [9] [77, 77] readWF_okMod rfl

theorem execute_frees_input_exactly_once_witness :
    ∃ b, (Execute okMod 0 [9]).2.2.filter Event.isFree =
      [Event.freeCall 16 1 b] :=
  execute_frees_input_exactly_once Nat okMod 0 [9] 16 0 (by decide) (by decide)
    rfl (by decide)

theorem execute_cleanup_behavior_witness :
    (Execute readFailMod 0 [9]).2.2.countP Event.isClearOutput = 0 ∧
    (Execute clearFailMod 0 [9]).1 = .error .clearOutputFailed ∧
    (Execute (setFree okMod failFree) 0 [9]).1 = (Execute okMod 0 [9]).1 :=
  ⟨(execute_cleanup_behavior Nat readFailMod 0 [9] okMod.free).1 rfl,
   (execute_cleanup_behavior Nat clearFailMod 0 [9] okMod.free).2.1 64 2 [77, 77]
     (by decide) (by decide),
   (execute_cleanup_behavior Nat okMod 0 [9] failFree).2.2⟩

theorem execute_alloc_error_paths_witness :
    ((Execute nullAllocMod 0 [9]).1 = .error (.allocFailed .mallocNull) ∧
     (Execute nullAllocMod 0 [9]).2.2.countP Event.isExecute = 0) ∧
    ((Execute writeFailMod 0 [9]).1 = .error (.allocFailed .writeFailed) ∧
     ∃ b, Event.freeCall 16 1 b ∈ (Execute writeFailMod 0 [9]).2.2) :=
  ⟨(execute_alloc_error_paths Nat nullAllocMod 0 [9] (by decide)).1 0 rfl,
   (execute_alloc_error_paths Nat writeFailMod 0 [9] (by decide)).2 16 0 rfl
     (by decide) rfl⟩

theorem newProst_missing_export_fails_witness :
    (newProstWithModule rawMissing 0).1 = .error (.missingExport "prost_malloc") ∧
    requiredAbsent rawMissing "prost_malloc" ∧
    Event.closeMod ∈ (newProstWithModule rawMissing 0).2.2 := by
  obtain ⟨name, h1, h2, h3⟩ := newProst_missing_export_fails Nat rawMissing 0
    (fun f h => by simp [rawMissing] at h) (Or.inl rfl)
  have hn : name = "prost_malloc" := by
    have h4 : (newProstWithModule rawMissing 0).1 =
        .error (.missingExport "prost_malloc") := rfl
    rw [h1] at h4
    simpa using h4
  subst hn
  exact ⟨h1, h2, h3⟩

theorem newProst_init_semantics_witness :
    (∃ b, (constructThenExecute rawFailInit 0 []).head? =
      some (Event.initCall b)) ∧
    (constructThenExecute rawFailInit 0 []).countP Event.isInit = 1 ∧
    ((newProstWithModule rawFailInit 0).1 = .error .initFailed ∧
      Event.closeMod ∈ (newProstWithModule rawFailInit 0).2.2) := by
  obtain ⟨h1, h2, h3⟩ :=
    newProst_init_semantics Nat rawFailInit 0 [] (fun _ => none) rfl
  exact ⟨h1, h2, h3 rfl⟩

theorem execute_zero_len_gives_empty_witness :
    (Execute zeroLenMod 0 [9]).1 = .ok ([] : Bytes) :=
  execute_zero_len_gives_empty Nat zeroLenMod 0 [9] [] 16 1 readWF_zeroLenMod
    rfl (by decide)

theorem execute_ignores_output_len_export_witness :
    (Execute okMod 0 [9]).2.2.countP Event.isGetOutputLen = 0 ∧
    Execute (setGetOutputLen okMod failLen) 0 [9] = Execute okMod 0 [9] ∧
    (newProstWithModule rawNoLen 0).1 ≠ .ok okMod := by
  obtain ⟨h1, h2, h3⟩ := execute_ignores_output_len_export Nat okMod 0 [9]
  exact ⟨h1, h2 failLen, h3 rawNoLen 0 rfl okMod⟩

end Prost
